import Mathlib

/-!
Verification of the `unsegen_pager` crate (files `src/lib.rs`, `src/highlighting.rs`,
`src/decorating.rs`) against its natural-language specification.

Shallow embedding conventions:
* `LineIndex` (a `usize` newtype of the host library) is modelled as `Nat`; all index
  arithmetic in the crate stays far below `usize::MAX`, so plain `Nat` arithmetic is faithful.
* Row positions (`RowIndex`, an `i32` newtype) are modelled as `Int`; the draw computations
  never approach `i32` bounds for realistic surfaces, so `Int` is faithful.
* Rust functions that can panic (slice indexing with an invalid range) return `Option`,
  with `none` standing for the panic.
* `PagerContent::decorator` and all decoration drawing is omitted: no claim under
  consideration concerns the decoration column, and the decorator does not influence
  the fields and results modelled here.
* The line type `L : PagerLine` is kept abstract as a type parameter `α`; the only use of
  `PagerLine::get_content` in the modelled code paths is as input to
  `Cursor::num_expected_wraps` (a host-library function depending on the window width),
  which is modelled as an abstract parameter `wraps : α → Nat`.
-/

namespace UnsegenPager

/-! ## Style modifiers (host library `unsegen::base`, used by `highlighting.rs` and `draw`)

The types below model the host library's `StyleModifier` / `BoolModifyMode`.
Modelled from the spec: the `StyleModifier` type and its `on_top_of` composition are
part of the external host library (spec section 6 lists "layered style modifiers" among the
assumed host primitives), so they are not in this repository's sources.  Following the
spec's reading of layering (section 4.3: "each delta is layered 'on top of' a base style"),
`s.on_top_of below` lets every field that is set in `s` take precedence, and fills fields
that are unset in `s` from `below`.  Colors are modelled as opaque numeric identifiers, and
the `TextFormatModifier` sub-structure (bold/italic/underline/invert) is flattened into the
modifier record.  Merging of two set `invert` fields is never exercised by any theorem
below (the highlight styles in play leave `invert` unset). -/

/-- Host library `BoolModifyMode`: how a boolean render attribute is modified. -/
inductive BoolModifyMode where
  | btrue : BoolModifyMode
  | bfalse : BoolModifyMode
  | toggle : BoolModifyMode
deriving DecidableEq

/-- Host library `StyleModifier`: a partial modification of a text style.
`none` fields leave the underlying style untouched. -/
structure StyleModifier where
  fg_color : Option Nat := none
  bg_color : Option Nat := none
  bold : Option Bool := none
  italic : Option Bool := none
  underline : Option Bool := none
  invert : Option BoolModifyMode := none
deriving DecidableEq

/-- `StyleModifier::new()`: the neutral modifier (all fields unset). -/
def StyleModifier.new : StyleModifier := {}

/-- `StyleModifier::on_top_of`: apply `s` on top of `below`; fields set in `s` win,
fields unset in `s` are taken from `below`. -/
def StyleModifier.on_top_of (s below : StyleModifier) : StyleModifier where
  fg_color := s.fg_color.or below.fg_color
  bg_color := s.bg_color.or below.bg_color
  bold := s.bold.or below.bold
  italic := s.italic.or below.italic
  underline := s.underline.or below.underline
  invert := s.invert.or below.invert

/-- The 'active line' modifier built in `PagerWidget::draw` (lib.rs:304-306):
`StyleModifier::new().invert(BoolModifyMode::Toggle).bold(true)`. -/
def activeLineStyle : StyleModifier :=
  { invert := some BoolModifyMode.toggle, bold := some true }

/-! ## Highlight information (`highlighting.rs`) -/

/-- `HighlightInfo` (highlighting.rs:24-31): per-line style changes and a default style.
The `no_change` field of the Rust struct is always the empty vector; it only serves as the
out-of-bounds result of `get_info_for_line` and is inlined there. -/
structure HighlightInfo where
  style_changes : List (List (Nat × StyleModifier))
  default_style : StyleModifier
deriving DecidableEq

/-- `HighlightInfo::none` (highlighting.rs:35-41). -/
def HighlightInfo.none : HighlightInfo :=
  { style_changes := [], default_style := StyleModifier.new }

/-- `HighlightInfo::get_info_for_line` (highlighting.rs:44-48): the changes stored for
line `l`, or the empty list when out of bounds. -/
def HighlightInfo.get_info_for_line (h : HighlightInfo) (l : Nat) : List (Nat × StyleModifier) :=
  (h.style_changes.get? l).getD []

/-! ## Pager content and the range view (`lib.rs`) -/

/-- `PagerContent` (lib.rs:399-403) over an abstract line type `α`.
The `decorator` field is omitted (see the module comment). -/
structure PagerContent (α : Type) where
  storage : List α
  highlight_info : HighlightInfo
deriving DecidableEq

/-- `PagerContent::from_lines` (lib.rs:408-414). -/
def PagerContent.from_lines (storage : List α) : PagerContent α :=
  { storage := storage, highlight_info := HighlightInfo.none }

/-- `PagerContent::view` (lib.rs:473-500) with the range bounds already resolved to an
inclusive start `start` and an exclusive stop `stop` (the `Bound` matches at
lib.rs:481-492 resolve `Unbounded`/`Included`/`Excluded` to exactly such a pair; every
call site below passes the resolved pair).  The Rust code computes
`ustart = start`, `uend = min(len, stop)` and then slices `storage[ustart..uend]`;
slice indexing panics when `ustart > uend`, which is modelled by `none`. -/
def PagerContent.view (c : PagerContent α) (start stop : Nat) :
    Option (List (Nat × α)) :=
  let ustart := start
  let uend := min c.storage.length stop
  if ustart ≤ uend then
    some ((List.range' ustart (uend - ustart)).zip
      ((c.storage.drop ustart).take (uend - ustart)))
  else
    Option.none

/-- `PagerContent::view_line` (lib.rs:503-505). -/
def PagerContent.view_line (c : PagerContent α) (line : Nat) : Option α :=
  c.storage.get? line

/-! ## The pager state machine (`lib.rs`) -/

/-- `PagerError` (lib.rs:514-519). -/
inductive PagerError where
  | NoLineWithIndex : Nat → PagerError
  | NoLineWithPredicate : PagerError
  | NoContent : PagerError
deriving DecidableEq

/-- `Pager` (lib.rs:91-98): optional content plus the current line index. -/
structure Pager (α : Type) where
  content : Option (PagerContent α)
  current_line : Nat
deriving DecidableEq

/-- `Pager::new` (lib.rs:119-124). -/
def Pager.new : Pager α := { content := Option.none, current_line := 0 }

/-- `Pager::line_exists` (lib.rs:159-166). -/
def Pager.line_exists (p : Pager α) (line : Nat) : Bool :=
  match p.content with
  | some content => decide (line < content.storage.length)
  | Option.none => false

/-- `Pager::go_to_line` (lib.rs:171-179); returns the updated pager and the call result. -/
def Pager.go_to_line (p : Pager α) (line : Nat) :
    Pager α × Except PagerError Unit :=
  if p.line_exists line then
    ({ p with current_line := line }, Except.ok ())
  else
    (p, Except.error (PagerError.NoLineWithIndex line))

/-- `Pager::current_line_index` (lib.rs:201-203). -/
def Pager.current_line_index (p : Pager α) : Nat := p.current_line

/-- `Pager::current_line` accessor (lib.rs:206-212); named `current_line_opt` here because
the Rust method shares its name with the struct field. -/
def Pager.current_line_opt (p : Pager α) : Option α :=
  match p.content with
  | some content => content.storage.get? p.current_line_index
  | Option.none => Option.none

/-- `Scrollable::scroll_backwards` for `Pager` (lib.rs:344-351). -/
def Pager.scroll_backwards (p : Pager α) : Pager α × Except Unit Unit :=
  if 0 < p.current_line then
    ({ p with current_line := p.current_line - 1 }, Except.ok ())
  else
    (p, Except.error ())

/-- `Scrollable::scroll_forwards` for `Pager` (lib.rs:352-355):
`go_to_line(current + 1)` with the error discarded to `()`. -/
def Pager.scroll_forwards (p : Pager α) : Pager α × Except Unit Unit :=
  match p.go_to_line (p.current_line + 1) with
  | (p2, Except.ok ()) => (p2, Except.ok ())
  | (p2, Except.error _) => (p2, Except.error ())

/-- `Scrollable::scroll_to_beginning` for `Pager` (lib.rs:356-363). -/
def Pager.scroll_to_beginning (p : Pager α) : Pager α × Except Unit Unit :=
  if p.current_line = 0 then
    (p, Except.error ())
  else
    ({ p with current_line := 0 }, Except.ok ())

/-- `Scrollable::scroll_to_end` for `Pager` (lib.rs:364-379). -/
def Pager.scroll_to_end (p : Pager α) : Pager α × Except Unit Unit :=
  match p.content with
  | some content =>
    if content.storage.isEmpty then
      (p, Except.error ())
    else
      let last_line := content.storage.length - 1
      if p.current_line = last_line then
        (p, Except.error ())
      else
        ({ p with current_line := last_line }, Except.ok ())
  | Option.none => (p, Except.error ())

/-- `Pager::load` (lib.rs:129-137): install the new content, then, if the current line no
longer exists, fall back to `scroll_to_end` (whose result is discarded with `let _ = ...`). -/
def Pager.load (p : Pager α) (content : PagerContent α) : Pager α :=
  let p2 : Pager α := { p with content := some content }
  if p2.line_exists p2.current_line then p2 else (p2.scroll_to_end).1

/-- `Pager::clear_content` (lib.rs:142-144). -/
def Pager.clear_content (p : Pager α) : Pager α :=
  { p with content := Option.none }

/-- `Pager::go_to_line_if` (lib.rs:184-198): search `view(0..)` for the first pair
satisfying the predicate, then `go_to_line` there.  `view(0..)` resolves to the bounds
`(0, storage.len())`, for which `view` never panics; the `none` branch is unreachable. -/
def Pager.go_to_line_if (p : Pager α) (predicate : Nat → α → Bool) :
    Pager α × Except PagerError Unit :=
  let line : Except PagerError Nat :=
    match p.content with
    | some content =>
      match content.view 0 content.storage.length with
      | some v =>
        match v.find? (fun x => predicate x.1 x.2) with
        | some x => Except.ok x.1
        | Option.none => Except.error PagerError.NoLineWithPredicate
      | Option.none => Except.error PagerError.NoContent
    | Option.none => Except.error PagerError.NoContent
  match line with
  | Except.ok index => p.go_to_line index
  | Except.error e => (p, Except.error e)

/-! ## The draw-time candidate window (`PagerWidget::draw`, lib.rs:238-299) -/

/-- Rust `usize::checked_sub`. -/
def checkedSub (a b : Nat) : Option Nat :=
  if b ≤ a then some (a - b) else Option.none

/-- The constant `min_highlight_context` (lib.rs:243). -/
def min_highlight_context : Nat := 40

/-- `num_adjacent_lines_to_load` (lib.rs:244): `max(height, min_highlight_context / 2)`. -/
def num_adjacent_lines_to_load (height : Nat) : Nat :=
  max height (min_highlight_context / 2)

/-- `min_line` (lib.rs:245-249):
`current_line.checked_sub(num_adjacent_lines_to_load).unwrap_or(0)`. -/
def min_line (height current : Nat) : Nat :=
  (checkedSub current (num_adjacent_lines_to_load height)).getD 0

/-- `max_line` (lib.rs:250): `current_line + num_adjacent_lines_to_load`. -/
def max_line (height current : Nat) : Nat :=
  current + num_adjacent_lines_to_load height

/-! ## Draw-time vertical layout (lib.rs:276-299)

`wraps line` models `cursor.num_expected_wraps(line.get_content())`: the number of
additional display rows the line occupies beyond its first one at the current content
window width.  Each line therefore occupies `wraps line + 1` display rows, exactly the
summand `(cursor.num_expected_wraps(..) + 1) as i32` of lib.rs:279/285. -/

/-- The sum `view.map(|(_, line)| (wraps(line) + 1) as i32).sum()` over a materialised
view (lib.rs:276-287). -/
def num_line_wraps_sum (wraps : α → Nat) (v : List (Nat × α)) : Int :=
  (v.map (fun x => (wraps x.2 : Int) + 1)).sum

/-- `centered_current_line_start_pos` (lib.rs:289): `height / 2` as a row index. -/
def centered_current_line_start_pos (height : Nat) : Int :=
  ((height / 2 : Nat) : Int)

/-- The three row quantities computed by `PagerWidget::draw` before the render loop. -/
structure DrawLayout where
  /-- `best_current_line_pos_for_bottom` (lib.rs:290-293). -/
  best_current_line_pos_for_bottom : Int
  /-- `required_start_pos` (lib.rs:294-297); the row the cursor is moved to (lib.rs:299). -/
  required_start_pos : Int
  /-- The row at which the current line starts being rendered: the cursor starts at
  `required_start_pos` and each of the lines before the current one advances it by its
  `wraps + 1` display rows, i.e. by `num_line_wraps_until_current_line` rows in total. -/
  current_line_start : Int
deriving DecidableEq

/-- The vertical layout computation of `PagerWidget::draw` (lib.rs:276-299) on content
`c` with surface height `height` and current line `current`.  `none` models a panic of
one of the two `view` calls. -/
def draw_layout (wraps : α → Nat) (c : PagerContent α) (height current : Nat) :
    Option DrawLayout :=
  match c.view (min_line height current) current,
        c.view current (max_line height current) with
  | some before, some after =>
    let num_line_wraps_until_current_line := num_line_wraps_sum wraps before
    let num_line_wraps_from_current_line := num_line_wraps_sum wraps after
    let best := max (centered_current_line_start_pos height)
      ((height : Int) - num_line_wraps_from_current_line)
    let required := min 0 (best - num_line_wraps_until_current_line)
    some { best_current_line_pos_for_bottom := best,
           required_start_pos := required,
           current_line_start := required + num_line_wraps_until_current_line }
  | _, _ => Option.none

/-- Spec-side row count of a contiguous segment of lines: each line contributes its wrap
count plus one. -/
def rows_of_lines (wraps : α → Nat) (lines : List α) : Int :=
  (lines.map (fun l => (wraps l : Int) + 1)).sum

/-- Spec-side `B`: total display rows of the candidate-window lines strictly before the
current line, i.e. of the storage segment `[min_line, current)`. -/
def rows_before_current (wraps : α → Nat) (c : PagerContent α) (height current : Nat) : Int :=
  rows_of_lines wraps
    ((c.storage.drop (min_line height current)).take (current - min_line height current))

/-- Spec-side `A`: total display rows of the current line and the candidate-window lines
after it, i.e. of the storage segment `[current, max_line)` (clipped to the store). -/
def rows_from_current (wraps : α → Nat) (c : PagerContent α) (height current : Nat) : Int :=
  rows_of_lines wraps
    ((c.storage.drop current).take (max_line height current - current))

/-! ## Per-line highlight application in the render loop (lib.rs:301-321) -/

/-- Rust byte slicing `&content[a..b]`, which panics (modelled as `none`) unless
`a ≤ b ≤ content.len()`.  Line content is modelled as a list of characters; for the
ASCII content of the claims byte indices and character indices coincide. -/
def slice (content : List Char) (a b : Nat) : Option (List Char) :=
  if a ≤ b ∧ b ≤ content.length then some ((content.drop a).take (b - a)) else Option.none

/-- The write loop of lib.rs:312-319 over the remaining style changes: emits the text
segments written by the cursor together with the style modifier active during each write.
`last_change_pos` and the currently set modifier are threaded explicitly; after the loop
the rest of the line is written with the last modifier (lib.rs:319). -/
def write_spans_go (content : List Char) (base_style : StyleModifier) :
    List (Nat × StyleModifier) → Nat → StyleModifier →
    Option (List (List Char × StyleModifier))
  | [], last_change_pos, current_mod => do
    let rest ← slice content last_change_pos content.length
    pure [(rest, current_mod)]
  | (change_pos, style) :: rest, last_change_pos, current_mod => do
    let seg ← slice content last_change_pos change_pos
    let tail ← write_spans_go content base_style rest change_pos (style.on_top_of base_style)
    pure ((seg, current_mod) :: tail)

/-- All writes performed for one line in the render loop (lib.rs:311-319): the changes
come from `highlight_info.get_info_for_line(line_index)`, `base_style` is
`activeLineStyle` for the current line and `StyleModifier.new` otherwise (lib.rs:303-309),
and `init_mod` is the modifier the cursor still carries when the line starts (the
`base_style` of the previous line, lib.rs:321). -/
def write_spans (content : List Char) (changes : List (Nat × StyleModifier))
    (base_style init_mod : StyleModifier) : Option (List (List Char × StyleModifier)) :=
  write_spans_go content base_style changes 0 init_mod

/-! ## Specification-side auxiliary definitions -/

/-- Spec-side description of `go_to_line_if`'s search: scan the lines forward, starting
the index count at `i`, and return the first pair `(index, line)` satisfying the
predicate. -/
def first_match_aux (predicate : Nat → α → Bool) : Nat → List α → Option (Nat × α)
  | _, [] => Option.none
  | i, l :: ls =>
    if predicate i l then some (i, l) else first_match_aux predicate (i + 1) ls

/-- The documented state invariant of the pager (spec section 3, "Current Line Index"):
whenever content with a non-empty store is present, `0 ≤ current < len`.  The lower
bound is automatic for `Nat`. -/
def Pager.invariant (p : Pager α) : Prop :=
  ∀ c : PagerContent α, p.content = some c → c.storage ≠ [] →
    p.current_line < c.storage.length

/-- The line content of the highlight-overlay example, `"hello world"` (11 ASCII bytes). -/
def helloWorld : List Char := ['h', 'e', 'l', 'l', 'o', ' ', 'w', 'o', 'r', 'l', 'd']

/-- A concrete highlight style for the overlay example: sets a foreground color and
turns bold off (as syntect-derived styles always set the bold flag,
highlighting.rs:113-124). -/
def styleACex : StyleModifier := { fg_color := some 1, bold := some false }

/-- A second concrete highlight style for the overlay example. -/
def styleBCex : StyleModifier := { fg_color := some 2, bold := some false }

/-! # Theorems -/

/-! ## Helper lemmas -/

/-- `view` succeeds exactly on ranges whose (clamped) upper end is not below the start,
and then yields the indexed storage segment. -/
theorem view_eq_some (c : PagerContent α) {s e : Nat}
    (h : s ≤ min c.storage.length e) :
    c.view s e = some ((List.range' s (min c.storage.length e - s)).zip
      ((c.storage.drop s).take (min c.storage.length e - s))) := by
  simp only [PagerContent.view]
  rw [if_pos h]

/-- Summing `wraps + 1` over an index-line zip only depends on the lines. -/
theorem num_line_wraps_sum_zip (wraps : α → Nat) :
    ∀ (idxs : List Nat) (ls : List α), idxs.length = ls.length →
      num_line_wraps_sum wraps (idxs.zip ls) = rows_of_lines wraps ls
  | [], [], _ => rfl
  | [], _ :: _, h => by simp at h
  | _ :: _, [], h => by simp at h
  | i :: idxs, l :: ls, h => by
    have h' : idxs.length = ls.length := by simpa using h
    have ih := num_line_wraps_sum_zip wraps idxs ls h'
    simp only [List.zip_cons_cons, num_line_wraps_sum, rows_of_lines, List.map_cons,
      List.sum_cons] at ih ⊢
    rw [ih]

/-- `min_line` never exceeds the current line. -/
theorem min_line_le (height current : Nat) : min_line height current ≤ current := by
  simp only [min_line, checkedSub]
  split
  · simp only [Option.getD_some]
    exact Nat.sub_le _ _
  · simp

/-- Finding the first predicate match in an index-line zip is the forward scan
`first_match_aux`. -/
theorem find_zip_eq_first_match (predicate : Nat → α → Bool) :
    ∀ (ls : List α) (i : Nat),
      ((List.range' i ls.length).zip ls).find? (fun x => predicate x.1 x.2) =
        first_match_aux predicate i ls
  | [], _ => rfl
  | l :: ls, i => by
    rw [List.length_cons, List.range'_succ, List.zip_cons_cons]
    rw [List.find?_cons]
    simp only [first_match_aux]
    by_cases hp : predicate i l
    · simp [hp]
    · simp only [hp, Bool.false_eq_true, if_false]
      exact find_zip_eq_first_match predicate ls (i + 1)

/-- A successful forward scan yields an index below the end of the scanned segment. -/
theorem first_match_aux_lt (predicate : Nat → α → Bool) :
    ∀ (ls : List α) (i j : Nat) (l : α),
      first_match_aux predicate i ls = some (j, l) → i ≤ j ∧ j < i + ls.length
  | [], _, _, _, h => by simp [first_match_aux] at h
  | l' :: ls, i, j, l, h => by
    simp only [first_match_aux] at h
    by_cases hp : predicate i l'
    · rw [if_pos hp] at h
      simp only [Option.some.injEq, Prod.mk.injEq] at h
      obtain ⟨rfl, rfl⟩ := h
      simp
    · rw [if_neg hp] at h
      have ih := first_match_aux_lt predicate ls (i + 1) j l h
      simp only [List.length_cons]
      omega

/-! ## C1: the range view -/

/-- C1: the claim states that `view(range)` never fails, yields only in-bounds indices,
yields an empty sequence for `a ≥ b`, and drops out-of-bounds indices.  The code
violates this: `PagerContent::view` clamps only the upper bound before slicing
`storage[ustart..uend]`, so any resolved range with `ustart > min(len, uend)` makes the
slice index panic (modelled by `none`) — contradicting both the claim and the function's
own documentation (lib.rs:471-472).  On a three-line store, `view(5..9)` and `view(2..1)`
panic, while `view(1..9)` (start in bounds) indeed drops the out-of-bounds tail. -/
theorem C1_view_panics_on_start_beyond_clamped_end :
    (PagerContent.from_lines [10, 20, 30]).view 5 9 = Option.none ∧
    (PagerContent.from_lines [10, 20, 30]).view 2 1 = Option.none ∧
    (PagerContent.from_lines [10, 20, 30]).view 1 9 = some [(1, 20), (2, 30)] := by
  decide

/-! ## C3: the candidate window -/

/-- C3: the candidate window of `PagerWidget::draw` is
`[C - R saturated at 0, C + R)` with `R = max(H, min_highlight_context / 2)` and
`min_highlight_context = 40`; the lower bound comes from `checked_sub` with a `0`
fallback (never wrapping subtraction), which equals saturating subtraction. -/
theorem C3_candidate_window (height current : Nat) :
    min_highlight_context = 40 ∧
    num_adjacent_lines_to_load height = max height (min_highlight_context / 2) ∧
    min_line height current =
      (checkedSub current (num_adjacent_lines_to_load height)).getD 0 ∧
    min_line height current = current - max height 20 ∧
    max_line height current = current + max height 20 := by
  refine ⟨rfl, rfl, rfl, ?_, rfl⟩
  simp only [min_line, checkedSub, num_adjacent_lines_to_load, min_highlight_context]
  split
  · simp only [Option.getD_some]
  · simp only [Option.getD_none]
    omega

/-! ## C2: the centering computation -/

/-- C2: writing `A` for the display rows of the current line and the candidate-window
lines after it and `B` for the display rows of the candidate-window lines strictly
before it (each line contributing its wrap count plus one), the draw pass chooses
`max(H/2, H - A)` as the start row for the current line, starts the whole rendered
window at `min(0, max(H/2, H - A) - B)`, and hence (second conjunct) with `H = 20` and
at least ten rows of content on each side the current line starts at row `10`.  The
hypothesis `current ≤ len` keeps the two `view` calls of the draw pass from panicking
(see C1); it holds whenever the pager invariant does. -/
theorem C2_draw_centering (wraps : α → Nat) (c : PagerContent α) (height current : Nat)
    (hcur : current ≤ c.storage.length) :
    draw_layout wraps c height current = some
      { best_current_line_pos_for_bottom :=
          max ((height / 2 : Nat) : Int)
            ((height : Int) - rows_from_current wraps c height current),
        required_start_pos :=
          min 0 (max ((height / 2 : Nat) : Int)
              ((height : Int) - rows_from_current wraps c height current) -
            rows_before_current wraps c height current),
        current_line_start :=
          min 0 (max ((height / 2 : Nat) : Int)
              ((height : Int) - rows_from_current wraps c height current) -
            rows_before_current wraps c height current) +
          rows_before_current wraps c height current } ∧
    (height = 20 → 10 ≤ rows_before_current wraps c height current →
      10 ≤ rows_from_current wraps c height current →
      (draw_layout wraps c height current).map DrawLayout.current_line_start = some 10) := by
  have hminle := min_line_le height current
  have hmin1 : min c.storage.length current = current := Nat.min_eq_right hcur
  have hv1 := view_eq_some c (s := min_line height current) (e := current)
    (by rw [hmin1]; exact hminle)
  have hv2 := view_eq_some c (s := current) (e := max_line height current)
    (le_min hcur (Nat.le_add_right _ _))
  rw [hmin1] at hv1
  have hb : num_line_wraps_sum wraps
      ((List.range' (min_line height current) (current - min_line height current)).zip
        ((c.storage.drop (min_line height current)).take (current - min_line height current))) =
      rows_before_current wraps c height current := by
    apply num_line_wraps_sum_zip
    rw [List.length_range', List.length_take, List.length_drop]
    omega
  have ha : num_line_wraps_sum wraps
      ((List.range' current (min c.storage.length (max_line height current) - current)).zip
        ((c.storage.drop current).take
          (min c.storage.length (max_line height current) - current))) =
      rows_from_current wraps c height current := by
    rw [num_line_wraps_sum_zip wraps _ _
      (by rw [List.length_range', List.length_take, List.length_drop]; omega)]
    unfold rows_from_current
    congr 1
    rw [List.take_eq_take]
    rw [List.length_drop]
    omega
  have hmain : draw_layout wraps c height current = some
      { best_current_line_pos_for_bottom :=
          max ((height / 2 : Nat) : Int)
            ((height : Int) - rows_from_current wraps c height current),
        required_start_pos :=
          min 0 (max ((height / 2 : Nat) : Int)
              ((height : Int) - rows_from_current wraps c height current) -
            rows_before_current wraps c height current),
        current_line_start :=
          min 0 (max ((height / 2 : Nat) : Int)
              ((height : Int) - rows_from_current wraps c height current) -
            rows_before_current wraps c height current) +
          rows_before_current wraps c height current } := by
    rw [draw_layout, hv1, hv2]
    dsimp only
    rw [hb, ha]
    rfl
  refine ⟨hmain, ?_⟩
  intro h20 hB hA
  subst h20
  rw [hmain]
  simp only [Option.map_some']
  congr 1
  have h10 : (((20 : Nat) / 2 : Nat) : Int) = 10 := by norm_num
  rw [h10]
  omega

/-- Witness for C2 at a concrete input: a store of thirty lines, no wrapping, surface
height `20`, current line `15`; the current line indeed starts at row `10`. -/
theorem C2_draw_centering_witness :
    (15 : Nat) ≤ (PagerContent.from_lines (List.range 30)).storage.length ∧
    (draw_layout (fun (_ : Nat) => 0) (PagerContent.from_lines (List.range 30)) 20 15).map
      DrawLayout.current_line_start = some 10 := by
  have h := C2_draw_centering (fun (_ : Nat) => 0)
    (PagerContent.from_lines (List.range 30)) 20 15 (by decide)
  exact ⟨by decide, h.2 rfl (by decide) (by decide)⟩

/-! ## C4: highlight overlay application -/

/-- C4 counterexample: the claim asserts that on the current line the invert-toggle plus
bold active-line modifier takes precedence over the highlight styles.  In the code
(lib.rs:316) the composition is `style.on_top_of(base_style)`: the highlight style is
layered on top of the active-line base, so a highlight style that sets `bold` (as every
syntect-derived style does, highlighting.rs:113-124) overrides the active line's
`bold(true)`.  Concretely, with `styleB` carrying `bold = false`, bytes `[5,11)` of the
current line are written with a modifier whose bold field is `false`, not the claimed
active-line composition. -/
theorem C4_active_line_precedence_counterexample :
    write_spans helloWorld [(0, styleACex), (5, styleBCex)] activeLineStyle
        StyleModifier.new =
      some [([], StyleModifier.new),
            (['h', 'e', 'l', 'l', 'o'], styleACex.on_top_of activeLineStyle),
            ([' ', 'w', 'o', 'r', 'l', 'd'], styleBCex.on_top_of activeLineStyle)] ∧
    (styleBCex.on_top_of activeLineStyle).bold = some false ∧
    activeLineStyle.bold = some true ∧
    styleBCex.on_top_of activeLineStyle ≠
      activeLineStyle.on_top_of (styleBCex.on_top_of StyleModifier.new) := by
  decide

/-- C4 (amended): with overlay entry `[(0, styleA), (5, styleB)]` on content
`"hello world"`, bytes `[0,5)` are written with `styleA` layered on the default style and
bytes `[5,11)` with `styleB` layered on the default style; on the current line each
highlight style is instead layered on top of the invert-toggle plus bold active-line
modifier: the composition keeps every active-line field the highlight style leaves unset
(the invert toggle in particular), while the highlight style wins on fields both set. -/
theorem C4_highlight_overlay_application (styleA styleB init_mod : StyleModifier) :
    helloWorld = "hello world".toList ∧
    write_spans helloWorld [(0, styleA), (5, styleB)] StyleModifier.new init_mod =
      some [([], init_mod),
            (['h', 'e', 'l', 'l', 'o'], styleA.on_top_of StyleModifier.new),
            ([' ', 'w', 'o', 'r', 'l', 'd'], styleB.on_top_of StyleModifier.new)] ∧
    (∀ s : StyleModifier, s.on_top_of StyleModifier.new = s) ∧
    write_spans helloWorld [(0, styleA), (5, styleB)] activeLineStyle init_mod =
      some [([], init_mod),
            (['h', 'e', 'l', 'l', 'o'], styleA.on_top_of activeLineStyle),
            ([' ', 'w', 'o', 'r', 'l', 'd'], styleB.on_top_of activeLineStyle)] ∧
    (∀ s : StyleModifier, s.on_top_of activeLineStyle =
      { fg_color := s.fg_color, bg_color := s.bg_color, bold := s.bold.or (some true),
        italic := s.italic, underline := s.underline,
        invert := s.invert.or (some BoolModifyMode.toggle) }) := by
  refine ⟨rfl, rfl, ?_, rfl, ?_⟩
  · intro s
    cases s
    simp [StyleModifier.on_top_of, StyleModifier.new]
  · intro s
    cases s
    simp [StyleModifier.on_top_of, activeLineStyle]

/-! ## C5: `go_to_line` -/

/-- C5: on a loaded store, `go_to_line i` with `i < len` succeeds and sets the current
index to `i`; with `i ≥ len`, or with no content loaded, it fails with
`NoLineWithIndex i` and leaves the pager (in particular `current_line_index`)
unchanged. -/
theorem C5_go_to_line (p : Pager α) (i : Nat) :
    (∀ c : PagerContent α, p.content = some c → i < c.storage.length →
      p.go_to_line i = ({ p with current_line := i }, Except.ok ()) ∧
      (p.go_to_line i).1.current_line_index = i) ∧
    ((∀ c : PagerContent α, p.content = some c → c.storage.length ≤ i) →
      p.go_to_line i = (p, Except.error (PagerError.NoLineWithIndex i)) ∧
      (p.go_to_line i).1.current_line_index = p.current_line_index) := by
  constructor
  · intro c hc hi
    have hex : p.line_exists i = true := by
      simp [Pager.line_exists, hc, hi]
    refine ⟨?_, ?_⟩ <;> simp [Pager.go_to_line, hex, Pager.current_line_index]
  · intro hout
    have hex : p.line_exists i = false := by
      rw [Pager.line_exists]
      cases hc : p.content with
      | none => rfl
      | some c => simpa using Nat.not_lt.2 (hout c hc)
    refine ⟨?_, ?_⟩ <;> simp [Pager.go_to_line, hex, Pager.current_line_index]

/-- Witness for C5 on a two-line store: `go_to_line 1` succeeds and lands on `1`;
`go_to_line 5` fails with `NoLineWithIndex 5` and leaves the pager unchanged. -/
theorem C5_go_to_line_witness :
    (({ content := some (PagerContent.from_lines [10, 20]), current_line := 0 } :
        Pager Nat).go_to_line 1).1.current_line_index = 1 ∧
    (({ content := some (PagerContent.from_lines [10, 20]), current_line := 0 } :
        Pager Nat).go_to_line 5) =
      ({ content := some (PagerContent.from_lines [10, 20]), current_line := 0 },
        Except.error (PagerError.NoLineWithIndex 5)) := by
  refine ⟨((C5_go_to_line _ 1).1 _ rfl (by decide)).2, ((C5_go_to_line _ 5).2 ?_).1⟩
  intro c hc
  simp only [Option.some.injEq] at hc
  subst hc
  decide

/-! ## C6: reload clamping -/

/-- C6: loading content whose length does not exceed the held current index never
surfaces an error (`load` is total and discards the internal `scroll_to_end` result);
afterwards the current index is `len - 1` if the new store is non-empty, and if the new
store is empty the pager behaves as having no valid current line (`current_line()`
returns `None` and no line exists), the stored index staying as it was. -/
theorem C6_load_clamps (p : Pager α) (c : PagerContent α)
    (h : c.storage.length ≤ p.current_line) :
    (p.load c).content = some c ∧
    (c.storage ≠ [] → (p.load c).current_line = c.storage.length - 1) ∧
    (c.storage = [] → (p.load c).current_line_opt = Option.none ∧
      (p.load c).current_line = p.current_line) := by
  obtain ⟨st, hinfo⟩ := c
  simp only at h
  cases st with
  | nil =>
    have hload : p.load ⟨[], hinfo⟩ = { p with content := some ⟨[], hinfo⟩ } := by
      simp [Pager.load, Pager.line_exists, Pager.scroll_to_end]
    refine ⟨by rw [hload], fun hne => (hne rfl).elim,
      fun _ => ⟨?_, by rw [hload]⟩⟩
    rw [hload]
    simp [Pager.current_line_opt, Pager.current_line_index]
  | cons l0 ls =>
    have hnotlt : ¬ (p.current_line < ls.length + 1) := by
      simp only [List.length_cons] at h
      omega
    have hne2 : ¬ (p.current_line = ls.length) := by
      simp only [List.length_cons] at h
      omega
    have hload : p.load ⟨l0 :: ls, hinfo⟩ =
        { p with content := some ⟨l0 :: ls, hinfo⟩,
                 current_line := (l0 :: ls).length - 1 } := by
      simp [Pager.load, Pager.line_exists, Pager.scroll_to_end, hnotlt, hne2]
    refine ⟨by rw [hload], fun _ => by rw [hload], fun hemp => absurd hemp (by simp)⟩

/-- Witness for C6: a pager holding index `5` loads a two-line store and is clamped to
`1`; loading an empty store keeps the index but exposes no current line. -/
theorem C6_load_clamps_witness :
    (({ content := Option.none, current_line := 5 } : Pager Nat).load
        (PagerContent.from_lines [10, 20])).current_line = 1 ∧
    ((({ content := Option.none, current_line := 5 } : Pager Nat).load
        (PagerContent.from_lines [])).current_line_opt = Option.none ∧
      (({ content := Option.none, current_line := 5 } : Pager Nat).load
        (PagerContent.from_lines [])).current_line = 5) := by
  constructor
  · exact (C6_load_clamps ({ content := Option.none, current_line := 5 } : Pager Nat)
      (PagerContent.from_lines [10, 20]) (by decide)).2.1 (by decide)
  · exact (C6_load_clamps ({ content := Option.none, current_line := 5 } : Pager Nat)
      (PagerContent.from_lines []) (by decide)).2.2 rfl

/-! ## C7: the current-line invariant -/

/-- `scroll_to_end` re-establishes the invariant unconditionally. -/
theorem invariant_scroll_to_end (q : Pager α) : ((q.scroll_to_end).1).invariant := by
  obtain ⟨qc, qcur⟩ := q
  cases qc with
  | none =>
    intro c' hc' hne
    simp [Pager.scroll_to_end] at hc'
  | some c =>
    obtain ⟨st, hinfo⟩ := c
    cases st with
    | nil =>
      intro c' hc' hne
      simp [Pager.scroll_to_end] at hc'
      subst hc'
      exact absurd rfl hne
    | cons l0 ls =>
      intro c' hc' hne
      by_cases hq : qcur = ls.length
      · simp [Pager.scroll_to_end, hq] at hc' ⊢
        subst hc'
        simp
      · simp [Pager.scroll_to_end, hq] at hc' ⊢
        subst hc'
        simp

/-- `go_to_line` preserves the invariant. -/
theorem invariant_go_to_line (p : Pager α) (hp : p.invariant) (i : Nat) :
    ((p.go_to_line i).1).invariant := by
  by_cases hex : p.line_exists i = true
  · simp only [Pager.go_to_line, hex, if_true]
    intro c' hc' hne
    have hc'' : p.content = some c' := hc'
    rw [Pager.line_exists, hc''] at hex
    simp only [decide_eq_true_eq] at hex
    exact hex
  · simp only [Pager.go_to_line, hex, if_false]
    exact hp

/-- `load` re-establishes the invariant unconditionally. -/
theorem invariant_load (p : Pager α) (c : PagerContent α) : (p.load c).invariant := by
  rw [Pager.load]
  by_cases hex : ({ p with content := some c } : Pager α).line_exists p.current_line = true
  · simp only [hex, if_true]
    intro c' hc' hne
    obtain rfl : c = c' := Option.some.inj hc'
    have h2 : decide (p.current_line < c.storage.length) = true := hex
    simpa using h2
  · simp only [hex, if_false]
    exact invariant_scroll_to_end _

/-- `go_to_line_if` preserves the invariant. -/
theorem invariant_go_to_line_if (p : Pager α) (hp : p.invariant)
    (predicate : Nat → α → Bool) : ((p.go_to_line_if predicate).1).invariant := by
  rw [Pager.go_to_line_if]
  split
  · exact invariant_go_to_line p hp _
  · exact hp

/-- `scroll_forwards` only moves through `go_to_line`. -/
theorem scroll_forwards_fst (p : Pager α) :
    (p.scroll_forwards).1 = (p.go_to_line (p.current_line + 1)).1 := by
  rw [Pager.scroll_forwards]
  rcases h : p.go_to_line (p.current_line + 1) with ⟨p2, r⟩
  cases r with
  | ok u => cases u; rfl
  | error e => rfl

/-- C7: the invariant `0 ≤ current < len` (for loaded non-empty content) is preserved by
every operation; `load` and `scroll_to_end` even establish it unconditionally.
`clear_content` does not touch the current index and trivially satisfies the invariant
(no content), and a new pager satisfies it as well. -/
theorem C7_invariant_preserved (p : Pager α) (hp : p.invariant) :
    (∀ c : PagerContent α, (p.load c).invariant) ∧
    (∀ i : Nat, ((p.go_to_line i).1).invariant) ∧
    (∀ predicate : Nat → α → Bool, ((p.go_to_line_if predicate).1).invariant) ∧
    ((p.scroll_forwards).1).invariant ∧
    ((p.scroll_backwards).1).invariant ∧
    ((p.scroll_to_beginning).1).invariant ∧
    ((p.scroll_to_end).1).invariant ∧
    (p.clear_content).invariant ∧
    (p.clear_content).current_line = p.current_line ∧
    (Pager.new : Pager α).invariant := by
  refine ⟨invariant_load p, invariant_go_to_line p hp,
    invariant_go_to_line_if p hp, ?_, ?_, ?_, invariant_scroll_to_end p, ?_, rfl, ?_⟩
  · rw [scroll_forwards_fst]
    exact invariant_go_to_line p hp _
  · by_cases h0 : 0 < p.current_line
    · simp only [Pager.scroll_backwards, h0, if_true]
      intro c' hc' hne
      have := hp c' hc' hne
      simp only
      omega
    · simp only [Pager.scroll_backwards, h0, if_false]
      exact hp
  · by_cases h0 : p.current_line = 0
    · simp only [Pager.scroll_to_beginning, h0, if_true]
      exact hp
    · simp only [Pager.scroll_to_beginning, h0, if_false]
      intro c' hc' hne
      have hc'' : p.content = some c' := hc'
      simpa using List.length_pos.2 hne
  · intro c' hc' hne
    simp [Pager.clear_content] at hc'
  · intro c' hc' hne
    simp [Pager.new] at hc'

/-- Witness for C7: a pager on a three-line store at index `1` satisfies the invariant,
and both `scroll_backwards` and `clear_content` behave as C7 states. -/
theorem C7_invariant_witness :
    ((({ content := some (PagerContent.from_lines [10, 20, 30]), current_line := 1 } :
        Pager Nat).scroll_backwards).1).invariant ∧
    (({ content := some (PagerContent.from_lines [10, 20, 30]), current_line := 1 } :
        Pager Nat).clear_content).current_line = 1 := by
  have hp : ({ content := some (PagerContent.from_lines [10, 20, 30]), current_line := 1 } :
      Pager Nat).invariant := by
    intro c hc hne
    obtain rfl : PagerContent.from_lines [10, 20, 30] = c := Option.some.inj hc
    decide
  have h := C7_invariant_preserved _ hp
  exact ⟨h.2.2.2.2.1, h.2.2.2.2.2.2.2.2.1⟩

/-! ## C8: `go_to_line_if` -/

/-- C8: `go_to_line_if` scans forward from index 0: if the scan finds a first match
`(i, l)` it sets the current index to `i` and succeeds; if content is loaded but nothing
matches it fails with `NoLineWithPredicate`; with no content it fails with `NoContent`;
on failure the pager is unchanged. -/
theorem C8_go_to_line_if (p : Pager α) (predicate : Nat → α → Bool) :
    (p.content = Option.none →
      p.go_to_line_if predicate = (p, Except.error PagerError.NoContent)) ∧
    (∀ c : PagerContent α, p.content = some c →
      (first_match_aux predicate 0 c.storage = Option.none →
        p.go_to_line_if predicate = (p, Except.error PagerError.NoLineWithPredicate)) ∧
      (∀ i l, first_match_aux predicate 0 c.storage = some (i, l) →
        p.go_to_line_if predicate = ({ p with current_line := i }, Except.ok ()))) := by
  constructor
  · intro hc
    simp [Pager.go_to_line_if, hc]
  · intro c hc
    have hv : c.view 0 c.storage.length =
        some ((List.range' 0 c.storage.length).zip c.storage) := by
      have h0 : (0 : Nat) ≤ min c.storage.length c.storage.length := Nat.zero_le _
      rw [view_eq_some c h0]
      simp
    have hfind : ((List.range' 0 c.storage.length).zip c.storage).find?
        (fun x => predicate x.1 x.2) = first_match_aux predicate 0 c.storage :=
      find_zip_eq_first_match predicate c.storage 0
    constructor
    · intro hnone
      simp only [Pager.go_to_line_if, hc, hv]
      rw [hfind, hnone]
    · intro i l hsome
      have hi : i < c.storage.length := by
        have := first_match_aux_lt predicate c.storage 0 i l hsome
        omega
      have hex : p.line_exists i = true := by
        simp [Pager.line_exists, hc, hi]
      simp [Pager.go_to_line_if, hc, hv, hfind, hsome, Pager.go_to_line, hex]

/-- Witness for C8 on a three-line store: searching for the first line `≥ 20` lands on
index `1`; searching for `≥ 100` fails with `NoLineWithPredicate`; searching with no
content fails with `NoContent`. -/
theorem C8_go_to_line_if_witness :
    ({ content := some (PagerContent.from_lines [10, 20, 30]), current_line := 0 } :
        Pager Nat).go_to_line_if (fun _ l => decide (20 ≤ l)) =
      ({ content := some (PagerContent.from_lines [10, 20, 30]), current_line := 1 },
        Except.ok ()) ∧
    ({ content := some (PagerContent.from_lines [10, 20, 30]), current_line := 0 } :
        Pager Nat).go_to_line_if (fun _ l => decide (100 ≤ l)) =
      ({ content := some (PagerContent.from_lines [10, 20, 30]), current_line := 0 },
        Except.error PagerError.NoLineWithPredicate) ∧
    ({ content := Option.none, current_line := 0 } : Pager Nat).go_to_line_if
        (fun _ _ => true) =
      ({ content := Option.none, current_line := 0 },
        Except.error PagerError.NoContent) := by
  refine ⟨((C8_go_to_line_if _ _).2 _ rfl).2 1 20 (by decide), ?_,
    (C8_go_to_line_if _ _).1 rfl⟩
  exact ((C8_go_to_line_if _ _).2 _ rfl).1 (by decide)

/-! ## C9: edge scrolling -/

/-- C9: immediately after `scroll_to_beginning`, `scroll_backwards` always fails and
leaves the pager unchanged; immediately after `scroll_to_end`, `scroll_forwards` always
fails and leaves the pager unchanged — regardless of the pager state and of whether the
first call itself succeeded. -/
theorem C9_scroll_edges (p : Pager α) :
    ((p.scroll_to_beginning).1.scroll_backwards =
      ((p.scroll_to_beginning).1, Except.error ())) ∧
    ((p.scroll_to_end).1.scroll_forwards = ((p.scroll_to_end).1, Except.error ())) := by
  constructor
  · have h0 : (p.scroll_to_beginning).1.current_line = 0 := by
      by_cases h : p.current_line = 0
      · simp [Pager.scroll_to_beginning, h]
      · simp [Pager.scroll_to_beginning, h]
    rw [Pager.scroll_backwards, h0]
    simp
  · have hq : (p.scroll_to_end).1.line_exists ((p.scroll_to_end).1.current_line + 1) =
        false := by
      obtain ⟨pc, pcur⟩ := p
      cases pc with
      | none => simp [Pager.scroll_to_end, Pager.line_exists]
      | some c =>
        obtain ⟨st, hinfo⟩ := c
        cases st with
        | nil => simp [Pager.scroll_to_end, Pager.line_exists]
        | cons l0 ls =>
          by_cases hl : pcur = ls.length
          · simp [Pager.scroll_to_end, hl, Pager.line_exists]
          · simp [Pager.scroll_to_end, hl, Pager.line_exists]
    rw [Pager.scroll_forwards, Pager.go_to_line, hq]
    simp

/-! ## C10: `clear_content` keeps the index -/

/-- C10: `clear_content` only removes the content: the stored current index is kept and
still reported by `current_line_index`, a later `load` of content long enough reuses it,
and `scroll_backwards` / `scroll_to_beginning` (which never consult the store) still
succeed on the contentless pager whenever the index is positive, mutating the index. -/
theorem C10_clear_content (p : Pager α) :
    (p.clear_content).current_line_index = p.current_line_index ∧
    (p.clear_content).content = Option.none ∧
    (0 < p.current_line →
      (p.clear_content).scroll_backwards =
        ({ content := Option.none, current_line := p.current_line - 1 },
          Except.ok ())) ∧
    (p.current_line = 0 →
      (p.clear_content).scroll_backwards = (p.clear_content, Except.error ())) ∧
    (0 < p.current_line →
      (p.clear_content).scroll_to_beginning =
        ({ content := Option.none, current_line := 0 }, Except.ok ())) ∧
    (∀ c : PagerContent α, p.current_line < c.storage.length →
      ((p.clear_content).load c).current_line_index = p.current_line_index) := by
  refine ⟨rfl, rfl, ?_, ?_, ?_, ?_⟩
  · intro h0
    simp [Pager.clear_content, Pager.scroll_backwards, h0]
  · intro h0
    simp [Pager.clear_content, Pager.scroll_backwards, h0]
  · intro h0
    have hne : ¬ (p.current_line = 0) := by omega
    simp [Pager.clear_content, Pager.scroll_to_beginning, hne]
  · intro c hi
    have hx : (({ p with content := Option.none } : Pager α).load c).current_line =
        p.current_line := by
      simp [Pager.load, Pager.line_exists, hi]
    exact hx

/-- Witness for C10: clearing a pager at index `2` keeps the index; backward scrolling
and jumping to the beginning still succeed without content; reloading reuses the
index. -/
theorem C10_clear_content_witness :
    (({ content := some (PagerContent.from_lines [10, 20, 30]), current_line := 2 } :
        Pager Nat).clear_content).scroll_backwards =
      ({ content := Option.none, current_line := 1 }, Except.ok ()) ∧
    (({ content := some (PagerContent.from_lines [10, 20, 30]), current_line := 2 } :
        Pager Nat).clear_content).scroll_to_beginning =
      ({ content := Option.none, current_line := 0 }, Except.ok ()) ∧
    ((({ content := some (PagerContent.from_lines [10, 20, 30]), current_line := 2 } :
        Pager Nat).clear_content).load
          (PagerContent.from_lines [1, 2, 3])).current_line_index = 2 := by
  have h := C10_clear_content
    ({ content := some (PagerContent.from_lines [10, 20, 30]), current_line := 2 } :
      Pager Nat)
  exact ⟨h.2.2.1 (by decide), h.2.2.2.2.1 (by decide),
    h.2.2.2.2.2 (PagerContent.from_lines [1, 2, 3]) (by decide)⟩

end UnsegenPager
